import Mathlib

/-!
Verification of the api-forge HTTP dispatch layer: line reader, streaming
decoders (SSE / NDJSON / binary), interceptor manager, path-tree builder and
the REST call pipeline (error classification and scalar body decoding).

All definitions are shallow embeddings of the TypeScript source in
`src/packages/mock-dash-rewrite/src/api-client/` (sse-call.ts, api-client.ts,
_prepare-fetch.ts) and the interceptor / path-tree modules.  Strings are
modelled on their character lists so every definition evaluates inside the
kernel.
-/

namespace ApiForge

/-- Whitespace predicate used by the model of JavaScript `String.trim` and by
the JSON parser (space, tab, newline, carriage return). -/
def isWsChar (c : Char) : Bool :=
  c == ' ' || c == '\t' || c == '\n' || c == '\r'

/-- Model of JavaScript `String.trim` on character lists. -/
def trimChars (cs : List Char) : List Char :=
  ((cs.dropWhile isWsChar).reverse.dropWhile isWsChar).reverse

/-- Model of JavaScript `String.trim`. -/
def trimStr (s : String) : String :=
  String.mk (trimChars s.data)

/-- Split a character list on a separator character, keeping empty pieces,
mirroring JavaScript `string.split(sep)` for a one-character separator. -/
def splitCharsOn (sep : Char) : List Char → List (List Char)
  | [] => [[]]
  | c :: cs =>
    let rest := splitCharsOn sep cs
    if c == sep then [] :: rest
    else
      match rest with
      | [] => [[c]]
      | l :: ls => (c :: l) :: ls

/-- Model of JavaScript `string.split('\n')`. -/
def splitOnNl (s : String) : List String :=
  (splitCharsOn '\n' s.data).map String.mk

/-- Model of JavaScript `string.startsWith(p)`. -/
def startsWithStr (s p : String) : Bool :=
  p.data.isPrefixOf s.data

/-- Model of JavaScript `string.substring(n)` (ASCII inputs). -/
def strDrop (s : String) (n : Nat) : String :=
  String.mk (s.data.drop n)

/-- Model of JavaScript `string.includes(pat)`. -/
def containsSub (s pat : List Char) : Bool :=
  match s with
  | [] => pat.isEmpty
  | _ :: cs => pat.isPrefixOf s || containsSub cs pat

/-- Model of JavaScript `string.includes(pat)` on strings. -/
def includesStr (s pat : String) : Bool :=
  containsSub s.data pat.data

/-- Model of JavaScript `string.replace(pat, rep)` with a string pattern,
which replaces only the first occurrence. -/
def replaceFirstChars : List Char → List Char → List Char → List Char
  | [], _, _ => []
  | c :: cs, pat, rep =>
    if pat.isPrefixOf (c :: cs) then rep ++ (c :: cs).drop pat.length
    else c :: replaceFirstChars cs pat rep

/-- Model of JavaScript `string.replace(pat, rep)` on strings (first
occurrence only; an empty pattern is prepended, as in JavaScript). -/
def replaceFirstStr (s pat rep : String) : String :=
  if pat.data.isEmpty then String.mk (rep.data ++ s.data)
  else String.mk (replaceFirstChars s.data pat.data rep.data)

/-- Join a list of strings with newlines, mirroring `array.join('\n')`. -/
def joinNl : List String → String
  | [] => ""
  | [s] => s
  | s :: rest => s ++ "\n" ++ joinNl rest

/-! ### JSON value model

`Json` models the JavaScript values produced by the host `JSON.parse`
capability on the integer / string / object fragment exercised by the code.
-/

inductive Json where
  | null
  | bool (b : Bool)
  | num (n : Int)
  | str (s : String)
  | arr (elems : List Json)
  | obj (fields : List (String × Json))

/-- Digits of a number literal, mirroring a maximal digit run. -/
def takeDigits : List Char → List Char × List Char
  | [] => ([], [])
  | c :: cs =>
    if c.isDigit then
      let (ds, rest) := takeDigits cs
      (c :: ds, rest)
    else ([], c :: cs)

/-- Numeric value of a digit run. -/
def digitsVal (ds : List Char) : Nat :=
  ds.foldl (fun acc c => acc * 10 + (c.toNat - 48)) 0

/-- Skip JSON whitespace. -/
def skipWs : List Char → List Char
  | [] => []
  | c :: cs => if isWsChar c then skipWs cs else c :: cs

/-- Parse the remainder of a JSON string literal (no escape sequences in the
modelled fragment; a backslash makes the parse fail). -/
def parseStringChars : List Char → Option (List Char × List Char)
  | [] => none
  | c :: cs =>
    if c == '"' then some ([], cs)
    else if c == '\\' then none
    else
      match parseStringChars cs with
      | some (body, rest) => some (c :: body, rest)
      | none => none

mutual

/-- Parse one JSON value (fuel-indexed recursive descent), modelling the host
`JSON.parse` capability on the fragment used by the decoders. -/
def parseValue : Nat → List Char → Option (Json × List Char)
  | 0, _ => none
  | fuel + 1, cs =>
    match skipWs cs with
    | [] => none
    | '"' :: rest =>
      (match parseStringChars rest with
       | some (body, r) => some (.str (String.mk body), r)
       | none => none)
    | '{' :: rest =>
      (match skipWs rest with
       | '}' :: r => some (.obj [], r)
       | cs2 =>
         match parseMembers fuel cs2 with
         | some (fs, r) => some (.obj fs, r)
         | none => none)
    | '[' :: rest =>
      (match skipWs rest with
       | ']' :: r => some (.arr [], r)
       | cs2 =>
         match parseElems fuel cs2 with
         | some (es, r) => some (.arr es, r)
         | none => none)
    | 't' :: 'r' :: 'u' :: 'e' :: r => some (.bool true, r)
    | 'f' :: 'a' :: 'l' :: 's' :: 'e' :: r => some (.bool false, r)
    | 'n' :: 'u' :: 'l' :: 'l' :: r => some (.null, r)
    | '-' :: rest =>
      (match takeDigits rest with
       | ([], _) => none
       | (ds, r) => some (.num (-(digitsVal ds : Int)), r))
    | c :: rest =>
      if c.isDigit then
        match takeDigits (c :: rest) with
        | (ds, r) => some (.num (Int.ofNat (digitsVal ds)), r)
      else none

/-- Parse the members of a JSON object after the opening brace. -/
def parseMembers : Nat → List Char → Option (List (String × Json) × List Char)
  | 0, _ => none
  | fuel + 1, cs =>
    match skipWs cs with
    | '"' :: rest =>
      (match parseStringChars rest with
       | none => none
       | some (key, r1) =>
         match skipWs r1 with
         | ':' :: r2 =>
           (match parseValue fuel r2 with
            | none => none
            | some (v, r3) =>
              match skipWs r3 with
              | ',' :: r4 =>
                (match parseMembers fuel r4 with
                 | some (fs, r5) => some ((String.mk key, v) :: fs, r5)
                 | none => none)
              | '}' :: r4 => some ([(String.mk key, v)], r4)
              | _ => none)
         | _ => none)
    | _ => none

/-- Parse the elements of a JSON array after the opening bracket. -/
def parseElems : Nat → List Char → Option (List Json × List Char)
  | 0, _ => none
  | fuel + 1, cs =>
    match parseValue fuel cs with
    | none => none
    | some (v, r1) =>
      match skipWs r1 with
      | ',' :: r2 =>
        (match parseElems fuel r2 with
         | some (es, r3) => some (v :: es, r3)
         | none => none)
      | ']' :: r2 => some ([v], r2)
      | _ => none

end

/-- Model of the host `JSON.parse`: `none` models a thrown `SyntaxError`. -/
def jsonParse (s : String) : Option Json :=
  match parseValue (s.length + 1) s.data with
  | some (j, rest) => if skipWs rest = [] then some j else none
  | none => none

/-! ### Line reader (`readLines` in sse-call.ts)

The byte stream is modelled as the list of decoded texts of its chunks, one
list element per `reader.read()` result.
-/

/-- One step of `readLines`: the loop body over the remaining chunks with the
current partial-line buffer (sse-call.ts lines 225-257). -/
def readLinesGo : List String → String → List String
  | [], buffer => if 0 < buffer.length then [buffer] else []
  | c :: cs, buffer =>
    let parts := splitOnNl (buffer ++ c)
    let newBuffer := parts.getLastD ""
    let complete := parts.dropLast
    complete.filter (fun l => 0 < (trimStr l).length) ++ readLinesGo cs newBuffer

/-- `readLines`: lines yielded for a byte stream delivered as the given
chunks. -/
def readLines (chunks : List String) : List String :=
  readLinesGo chunks ""

/-- The partial line still buffered when the stream ends. -/
def finalRemainderGo : List String → String → String
  | [], buffer => buffer
  | c :: cs, buffer => finalRemainderGo cs ((splitOnNl (buffer ++ c)).getLastD "")

/-- The partial line still buffered when the stream ends, from the start. -/
def finalRemainder (chunks : List String) : String :=
  finalRemainderGo chunks ""

/-! ### Validators

The schema-validation collaborator is an opaque capability
`validate(value) -> success(data) | failure(issues)`; a validator is modelled
as `Json → Option Json` (`some data` on success).  `objFieldNum name` models
`z.object(\x7b name: z.number() \x7d)`, whose success data is the object
stripped to the declared field.
-/

/-- Validator for an object schema with one numeric field. -/
def objFieldNum (name : String) : Json → Option Json
  | .obj fields =>
    (match List.lookup name fields with
     | some (.num n) => some (.obj [(name, .num n)])
     | _ => none)
  | _ => none

/-! ### SSE decoder (`sseStreamParser` in sse-call.ts, lines 315-407) -/

/-- One entry of the per-event schema map: whether the validator is a plain
string validator (`z.ZodString`), and the validation capability. -/
structure SSESchemaEntry where
  isStringSchema : Bool
  validate : Json → Option Json

/-- The SSE accumulator: current event name, data lines, optional id. -/
structure SSEState where
  eventName : String
  dataBuffer : List String
  eventId : Option String

/-- The accumulator defaults (`eventName = "message"`, empty data, no id). -/
def initSSEState : SSEState :=
  ⟨"message", [], none⟩

/-- A chunk yielded by the SSE decoder. -/
inductive SSEChunkOut where
  | event (name : String) (data : Json) (id : Option String) (raw : String)
  | parseError (message : String) (raw : Option String)

/-- Process one line of the SSE grammar, returning the next accumulator state
and the chunks yielded at this line. -/
def sseProcessLine (schemas : List (String × SSESchemaEntry)) (st : SSEState)
    (line : String) : SSEState × List SSEChunkOut :=
  if startsWithStr line ":" then (st, [])
  else if startsWithStr line "event:" then
    ({ st with eventName := trimStr (strDrop line 6) }, [])
  else if startsWithStr line "data:" then
    ({ st with dataBuffer := st.dataBuffer ++ [trimStr (strDrop line 5)] }, [])
  else if startsWithStr line "id:" then
    ({ st with eventId := some (trimStr (strDrop line 3)) }, [])
  else if line == "" then
    if st.dataBuffer.isEmpty then (st, [])
    else
      let rawData := joinNl st.dataBuffer
      match List.lookup st.eventName schemas with
      | none =>
        (initSSEState,
         [.parseError ("Unknown SSE event name: \"" ++ st.eventName ++ "\"")
            (some rawData)])
      | some schema =>
        let parsed : Option Json :=
          match jsonParse rawData with
          | some j => some j
          | none => if schema.isStringSchema then some (.str rawData) else none
        match parsed with
        | none =>
          (initSSEState,
           [.parseError "Failed to parse SSE data as JSON" (some rawData)])
        | some pj =>
          match schema.validate pj with
          | some d =>
            (initSSEState, [.event st.eventName d st.eventId rawData])
          | none =>
            (initSSEState, [.parseError "validation failed" (some rawData)])
  else (st, [])

/-- Run the SSE accumulator over a list of lines. -/
def sseRun (schemas : List (String × SSESchemaEntry)) :
    SSEState → List String → List SSEChunkOut
  | _, [] => []
  | st, l :: ls =>
    let step := sseProcessLine schemas st l
    step.2 ++ sseRun schemas step.1 ls

/-- The SSE decoder: lines come from the shared line reader. -/
def sseStreamParser (schemas : List (String × SSESchemaEntry))
    (chunks : List String) : List SSEChunkOut :=
  sseRun schemas initSSEState (readLines chunks)

/-! ### NDJSON decoder (`ndjsonStreamParser` in sse-call.ts, lines 282-309) -/

/-- A chunk yielded by the NDJSON decoder. -/
inductive NdjsonChunkOut where
  | jsonItem (data : Json) (raw : String)
  | parseError (raw : String)

/-- Per-line behavior of the NDJSON decoder. -/
def ndjsonProcessLine (validate : Json → Option Json) (line : String) :
    List NdjsonChunkOut :=
  if trimStr line == "" then []
  else
    match jsonParse line with
    | none => [.parseError line]
    | some j =>
      match validate j with
      | some d => [.jsonItem d line]
      | none => [.parseError line]

/-- Run the NDJSON decoder over a list of lines. -/
def ndjsonRun (validate : Json → Option Json) : List String → List NdjsonChunkOut
  | [] => []
  | l :: ls => ndjsonProcessLine validate l ++ ndjsonRun validate ls

/-- The NDJSON decoder: lines come from the shared line reader. -/
def ndjsonStreamParser (validate : Json → Option Json) (chunks : List String) :
    List NdjsonChunkOut :=
  ndjsonRun validate (readLines chunks)

/-! ### Interceptor manager (`InterceptorManager`: addInterceptor, runAll) -/

/-- `addInterceptor` appends the callback to the registration list. -/
def addInterceptor {C D : Type} (callbacks : List (C → D → Option D))
    (cb : C → D → Option D) : List (C → D → Option D) :=
  callbacks ++ [cb]

/-- One loop iteration of `runAll`: a callback result of `undefined` (`none`)
keeps the previous value. -/
def applyCallback {C D : Type} (cb : C → D → Option D) (ctx : C) (d : D) : D :=
  match cb ctx d with
  | some r => r
  | none => d

/-- `runAll`: the sequential loop over the registered callbacks. -/
def runAll {C D : Type} : List (C → D → Option D) → C → D → D
  | [], _, d => d
  | cb :: rest, ctx, d => runAll rest ctx (applyCallback cb ctx d)

/-! ### REST call pipeline (`callRestEndpoint` in sse-call.ts lines 465-609) -/

/-- A transport response: status, content type and body text. -/
structure ResponseModel where
  status : Nat
  contentType : Option String
  body : String
  deriving Repr, DecidableEq

/-- `Response.ok`: success statuses are 200-299. -/
def ResponseModel.isOk (r : ResponseModel) : Bool :=
  200 ≤ r.status && r.status ≤ 299

/-- A JavaScript value rejected by the transport call: whether it is a
`TypeError`, whether it is an `Error` at all, its `name` and its `message`. -/
structure JSErrorModel where
  isTypeError : Bool
  isError : Bool
  name : String
  message : String
  deriving Repr, DecidableEq

/-- The `NetworkError` raised for transport failures. -/
structure NetworkErrorModel where
  message : String
  timeout : Bool
  deriving Repr, DecidableEq

/-- The catch-block classification of a transport rejection
(sse-call.ts lines 495-520). -/
def classifyFetchError (e : JSErrorModel) : NetworkErrorModel :=
  if e.isTypeError && includesStr e.message "fetch" then
    ⟨"Network request failed: " ++ e.message, false⟩
  else if e.isError && e.name == "AbortError" then
    ⟨"Request timeout", true⟩
  else
    ⟨"Request failed: " ++ (if e.isError then e.message else "Unknown error"),
     false⟩

/-- Decoding of a non-2xx error body: JSON, falling back to text, falling back
to a placeholder (sse-call.ts lines 531-541). -/
def decodeErrorBody (body : String) : Json :=
  match jsonParse body with
  | some j => j
  | none =>
    if body ≠ "" then .obj [("message", .str body)]
    else .obj [("message", .str "Unknown error")]

/-- The `ApiError` attached to result-shaped failures. -/
structure ApiErrorModel where
  message : String
  status : Nat
  body : Option Json

/-- Whether the response content type contains `"text/"`. -/
def ctIncludesText (r : ResponseModel) : Bool :=
  match r.contentType with
  | some ct => includesStr ct "text/"
  | none => false

/-- Scalar body decoding (sse-call.ts lines 556-583): `text/` content type
reads text, status 204 reads nothing (`none` models `undefined`), anything
else parses JSON; a parse failure becomes an `ApiError`. -/
def decodeScalarBody (r : ResponseModel) : Except ApiErrorModel (Option Json) :=
  if ctIncludesText r then .ok (some (.str r.body))
  else if r.status == 204 then .ok none
  else
    match jsonParse r.body with
    | some j => .ok (some j)
    | none => .error ⟨"Failed to parse response as JSON", r.status, none⟩

/-- Shape of the declared response schema, for comparing the code with the
spec sentence of claim C5. -/
inductive SchemaShape where
  | stringShape
  | voidShape
  | otherShape
  deriving Repr, DecidableEq

/-- Modelled from the spec: scalar decoding as the spec states it, where a
string-shaped schema also selects the text read and a void-shaped schema also
selects the empty marker.  This definition follows the spec words, for
comparison against `decodeScalarBody`, which follows the code. -/
def decodeScalarBodyAsSpecified (shape : SchemaShape) (r : ResponseModel) :
    Except ApiErrorModel (Option Json) :=
  if ctIncludesText r || shape == .stringShape then .ok (some (.str r.body))
  else if r.status == 204 || shape == .voidShape then .ok none
  else
    match jsonParse r.body with
    | some j => .ok (some j)
    | none => .error ⟨"Failed to parse response as JSON", r.status, none⟩

/-- The discriminated result of a REST endpoint call once a response exists. -/
inductive CallResult where
  | success (data : Json) (response : ResponseModel)
  | apiFailure (err : ApiErrorModel) (response : ResponseModel)
  | validationFailure (response : ResponseModel)

/-- The REST endpoint call after the transport settles: a rejection is
classified and thrown (`Except.error`), a response is classified into the
returned discriminated result (`Except.ok`). -/
def callRestEndpointModel (fetchResult : Except JSErrorModel ResponseModel)
    (validate : Option Json → Option Json) :
    Except NetworkErrorModel CallResult :=
  match fetchResult with
  | .error e => .error (classifyFetchError e)
  | .ok r =>
    if !r.isOk then
      .ok (.apiFailure
        ⟨"API call failed with status " ++ toString r.status, r.status,
         some (decodeErrorBody r.body)⟩ r)
    else
      match decodeScalarBody r with
      | .error apiErr => .ok (.apiFailure apiErr r)
      | .ok v =>
        match validate v with
        | some d => .ok (.success d r)
        | none => .ok (.validationFailure r)

/-! ### Path-tree builder (`parsePath` / `buildNode` in api-client.ts) -/

/-- A parsed path segment. -/
inductive ParsedSegment where
  | resource (name : String)
  | param (name : String)
  deriving Repr, DecidableEq

/-- `path.replace(/^\/|\/$/g, '')`: strip one leading and one trailing
slash. -/
def stripSlashes (path : String) : String :=
  let s1 := if startsWithStr path "/" then strDrop path 1 else path
  if s1.data.getLastD ' ' == '/' then String.mk s1.data.dropLast else s1

/-- `parsePath`: split on `/` and classify segments by a leading `:`. -/
def parsePath (path : String) : List ParsedSegment :=
  ((splitCharsOn '/' (stripSlashes path).data).map String.mk).map fun seg =>
    if startsWithStr seg ":" then .param (strDrop seg 1) else .resource seg

/-- `\x7b ...pathParams, [key]: value \x7d`: overwrite in place or append. -/
def setParam (ps : List (String × String)) (k v : String) :
    List (String × String) :=
  if ps.any (fun p => p.1 == k) then
    ps.map (fun p => if p.1 == k then (k, v) else p)
  else ps ++ [(k, v)]

/-- The call tree built by `buildNode`: a terminal carries the HTTP method and
the closed-over parameter map; a param node carries the function applied to a
concrete value. -/
inductive CallTree where
  | terminal (method : String) (pathParams : List (String × String))
  | resource (name : String) (child : CallTree)
  | paramNode (name : String) (child : String → CallTree)

/-- `buildNode`: fold the segment list into the call tree, each param segment
becoming a function that closes over a copied parameter map. -/
def buildNode : List ParsedSegment → String → List (String × String) → CallTree
  | [], m, ps => .terminal m ps
  | .resource n :: rest, m, ps => .resource n (buildNode rest m ps)
  | .param n :: rest, m, ps =>
    .paramNode n (fun v => buildNode rest m (setParam ps n v))

/-- Navigate a call tree, supplying one value per parameter function, down to
a terminal method call. -/
def resolveTerminal : CallTree → List String → Option (String × List (String × String))
  | .terminal m ps, [] => some (m, ps)
  | .terminal _ _, _ :: _ => none
  | .resource _ c, vs => resolveTerminal c vs
  | .paramNode _ _, [] => none
  | .paramNode _ f, v :: vs => resolveTerminal (f v) vs

/-- Number of parametric segments of a template. -/
def countParams : List ParsedSegment → Nat
  | [] => 0
  | .param _ :: rest => countParams rest + 1
  | .resource _ :: rest => countParams rest

/-- URL substitution in `_prepareFetch`: for each accumulated parameter,
replace the first occurrence of `:name` in the URL. -/
def substPathParams (url : String) (ps : List (String × String)) : String :=
  ps.foldl (fun u p => replaceFirstStr u (":" ++ p.1) p.2) url

/-- Navigate the call tree and build the final URL of the reached call. -/
def resolveUrl (t : CallTree) (url : String) (vs : List String) : Option String :=
  (resolveTerminal t vs).map fun p => substPathParams url p.2

/-! ### Generator traces for reader-lock accounting (claim C10)

`readLines` and `binaryStreamParser` run inside
`try \x7b ... \x7d finally \x7b reader.releaseLock() \x7d`.  A run is modelled
as a trace: the yielded items, whether an exception propagated, and whether
the lock was released.  The consumer may run the stream to the end or abandon
it after a number of items; a read may also reject.
-/

/-- One `reader.read()` result: a decoded chunk, or a rejection. -/
inductive ReadStep where
  | chunk (s : String)
  | fail
  deriving Repr

/-- How the consumer drives the generator: to exhaustion, or abandoning
iteration after `k` items (the runtime then runs the finally block). -/
inductive ConsumeMode where
  | toEnd
  | abandonAfter (k : Nat)
  deriving Repr, DecidableEq

/-- A finished generator run. -/
structure GenTrace (α : Type) where
  yielded : List α
  raised : Bool
  released : Bool
  deriving Repr

/-- Remaining item budget of the consumer (`none` is unbounded). -/
def budgetOf : ConsumeMode → Option Nat
  | .toEnd => none
  | .abandonAfter k => some k

/-- Yield items while the consumer budget allows; a `true` flag records that
the consumer abandoned the generator at a yield point. -/
def yieldUpTo {α : Type} : List α → Option Nat → List α × Option Nat × Bool
  | [], b => ([], b, false)
  | l :: ls, none =>
    let step := yieldUpTo ls none
    (l :: step.1, step.2.1, step.2.2)
  | _ :: _, some 0 => ([], some 0, true)
  | l :: ls, some (b + 1) =>
    let step := yieldUpTo ls (some b)
    (l :: step.1, step.2.1, step.2.2)

/-- The try-block body of `readLines`, before the finally clause runs:
`released` is false on every path out of the body. -/
def readLinesBody : List ReadStep → String → Option Nat → GenTrace String
  | [], buffer, budget =>
    if 0 < buffer.length then
      match budget with
      | some 0 => ⟨[], false, false⟩
      | _ => ⟨[buffer], false, false⟩
    else ⟨[], false, false⟩
  | .fail :: _, _, _ => ⟨[], true, false⟩
  | .chunk c :: rest, buffer, budget =>
    let parts := splitOnNl (buffer ++ c)
    let newBuffer := parts.getLastD ""
    let complete := (parts.dropLast).filter (fun l => 0 < (trimStr l).length)
    let step := yieldUpTo complete budget
    if step.2.2 then ⟨step.1, false, false⟩
    else
      let t := readLinesBody rest newBuffer step.2.1
      ⟨step.1 ++ t.yielded, t.raised, t.released⟩

/-- The finally clause: `reader.releaseLock()` runs on every exit of the
body — completion, exception, or consumer return. -/
def runWithFinally {α : Type} (t : GenTrace α) : GenTrace α :=
  { t with released := true }

/-- A full run of the `readLines` generator. -/
def readLinesRun (reads : List ReadStep) (mode : ConsumeMode) : GenTrace String :=
  runWithFinally (readLinesBody reads "" (budgetOf mode))

/-- One `reader.read()` result of a binary stream. -/
inductive BinReadStep where
  | chunk (data : List Nat)
  | fail
  deriving Repr, DecidableEq

/-- The try-block body of `binaryStreamParser` (sse-call.ts lines 262-277). -/
def binaryBody : List BinReadStep → Option Nat → GenTrace (List Nat)
  | [], _ => ⟨[], false, false⟩
  | .fail :: _, _ => ⟨[], true, false⟩
  | .chunk d :: rest, none =>
    let t := binaryBody rest none
    ⟨d :: t.yielded, t.raised, t.released⟩
  | .chunk _ :: _, some 0 => ⟨[], false, false⟩
  | .chunk d :: rest, some (b + 1) =>
    let t := binaryBody rest (some b)
    ⟨d :: t.yielded, t.raised, t.released⟩

/-- A full run of the `binaryStreamParser` generator. -/
def binaryStreamRun (reads : List BinReadStep) (mode : ConsumeMode) :
    GenTrace (List Nat) :=
  runWithFinally (binaryBody reads (budgetOf mode))

/-- The per-event schema map of the C1 scenario:
`\x7b msg: z.object(\x7b x: z.number() \x7d) \x7d`. -/
def msgSchemas : List (String × SSESchemaEntry) :=
  [("msg", ⟨false, objFieldNum "x"⟩)]

/-! ## Theorems -/

/-- A string of positive length is not the empty string. -/
lemma ne_empty_of_length_pos {s : String} (h : 0 < s.length) : s ≠ "" := by
  intro he
  subst he
  exact absurd h (by decide)

/-- A non-empty string has positive length. -/
lemma length_pos_of_ne_empty {s : String} (h : s ≠ "") : 0 < s.length := by
  cases s with
  | mk data =>
    cases data with
    | nil => exact absurd rfl h
    | cons c cs => exact Nat.succ_pos cs.length

/-- Every line yielded by `readLinesGo` is non-empty: mid-stream lines pass a
trim-length filter, and the final flush requires a positive buffer length. -/
lemma readLinesGo_ne_empty :
    ∀ (chunks : List String) (buffer l : String),
      l ∈ readLinesGo chunks buffer → l ≠ "" := by
  intro chunks
  induction chunks with
  | nil =>
    intro buffer l hl
    by_cases hb : 0 < buffer.length
    · simp only [readLinesGo, if_pos hb, List.mem_singleton] at hl
      subst hl
      exact ne_empty_of_length_pos hb
    · simp [readLinesGo, hb] at hl
  | cons c cs ih =>
    intro buffer l hl
    simp only [readLinesGo] at hl
    rcases List.mem_append.mp hl with h | h
    · have hmem := List.mem_filter.mp h
      intro he
      subst he
      have h2 := of_decide_eq_true hmem.2
      exact absurd h2 (by decide)
    · exact ih _ _ h

/-- When the stream ends with a non-empty buffered partial line, that line is
yielded last. -/
lemma readLinesGo_flush :
    ∀ (chunks : List String) (buffer : String),
      finalRemainderGo chunks buffer ≠ "" →
      ∃ pre, readLinesGo chunks buffer = pre ++ [finalRemainderGo chunks buffer] := by
  intro chunks
  induction chunks with
  | nil =>
    intro buffer h
    refine ⟨[], ?_⟩
    simp only [finalRemainderGo] at *
    simp only [readLinesGo, if_pos (length_pos_of_ne_empty h), List.nil_append]
  | cons c cs ih =>
    intro buffer h
    simp only [finalRemainderGo] at h ⊢
    obtain ⟨pre, hpre⟩ := ih _ h
    refine ⟨((splitOnNl (buffer ++ c)).dropLast.filter
      (fun l => 0 < (trimStr l).length)) ++ pre, ?_⟩
    simp only [readLinesGo]
    rw [hpre, List.append_assoc]

/-- C2 counterexample: the yielded lines are not trimmed — the input chunk
`" a \n"` yields the line `" a "`, which carries its surrounding whitespace. -/
theorem c2_counterexample_untrimmed :
    ¬ (∀ chunks : List String, ∀ l ∈ readLines chunks, trimStr l = l) := by
  intro h
  have h2 := h [" a \n"] " a " (by decide)
  exact absurd h2 (by decide)

/-- C2 (amended): every string yielded by the line reader is non-empty (never
the empty string), and when the underlying stream ends while a non-empty
partial line remains buffered, exactly that final line is yielded last.  The
lines are, however, yielded verbatim, without trimming. -/
theorem c2_line_reader_amended :
    (∀ chunks : List String, ∀ l ∈ readLines chunks, l ≠ "") ∧
    (∀ chunks : List String, finalRemainder chunks ≠ "" →
      ∃ pre, readLines chunks = pre ++ [finalRemainder chunks]) :=
  ⟨fun chunks l hl => readLinesGo_ne_empty chunks "" l hl,
   fun chunks h => readLinesGo_flush chunks "" h⟩

/-- C2 witness: the amended theorem at the concrete stream `"ab"`, `"c\nd"`,
whose final buffered line is `"d"`. -/
theorem c2_line_reader_amended_witness :
    "abc" ≠ "" ∧
    ∃ pre, readLines ["ab", "c\nd"] = pre ++ [finalRemainder ["ab", "c\nd"]] :=
  ⟨c2_line_reader_amended.1 ["ab", "c\nd"] "abc" (by decide),
   c2_line_reader_amended.2 ["ab", "c\nd"] (by decide)⟩

/-- C3: a byte stream delivered as the two chunks `"ab"` and `"c\nd"` yields
exactly the line `"abc"` followed by the line `"d"`. -/
theorem c3_cross_chunk_buffering : readLines ["ab", "c\nd"] = ["abc", "d"] := rfl

/-- For any non-empty line, the SSE accumulator yields nothing: only the
dispatch branch (`line == ""`) can yield, and it is unreachable. -/
lemma sseProcessLine_no_dispatch (schemas : List (String × SSESchemaEntry))
    (st : SSEState) (l : String) (h : l ≠ "") :
    (sseProcessLine schemas st l).2 = [] := by
  have hb : (l == "") = false := beq_eq_false_iff_ne.mpr h
  rw [sseProcessLine]
  simp only [hb]
  repeat' split
  all_goals simp_all

/-- The SSE decoder yields nothing on any list of non-empty lines. -/
lemma sseRun_nil (schemas : List (String × SSESchemaEntry)) :
    ∀ (lines : List String) (st : SSEState),
      (∀ l ∈ lines, l ≠ "") → sseRun schemas st lines = [] := by
  intro lines
  induction lines with
  | nil => intro st _; rfl
  | cons l ls ih =>
    intro st h
    simp only [sseRun]
    rw [sseProcessLine_no_dispatch schemas st l (h l (by simp))]
    simp only [List.nil_append]
    exact ih _ (fun x hx => h x (by simp [hx]))

/-- C1: the SSE decoder never dispatches.  The line reader yields only
non-empty lines, so `sseStreamParser`'s empty-line dispatch branch is
unreachable: for every schema map and every input the decoder yields no
chunks at all — in particular the claimed input yields neither the claimed
`Event` chunk nor, with an unregistered event name, the claimed `ParseError`
chunk. -/
theorem c1_sse_decoder_never_dispatches :
    (∀ (schemas : List (String × SSESchemaEntry)) (chunks : List String),
       sseStreamParser schemas chunks = []) ∧
    sseStreamParser msgSchemas ["event: msg\ndata: \x7b\"x\":1\x7d\n\n"] = [] ∧
    sseStreamParser [] ["event: msg\ndata: \x7b\"x\":1\x7d\n\n"] = [] :=
  ⟨fun schemas chunks =>
     sseRun_nil schemas (readLines chunks) initSSEState
       (fun l hl => readLinesGo_ne_empty chunks "" l hl),
   rfl, rfl⟩

/-- C4: a response with a non-success status is returned as the discriminated
`\x7b error, response \x7d` result — never thrown — with an `ApiError` whose
status equals the response status; the error body is decoded as JSON, falling
back to text, falling back to a generic placeholder. -/
theorem c4_error_result_not_thrown :
    (∀ (r : ResponseModel) (validate : Option Json → Option Json),
       r.isOk = false →
       callRestEndpointModel (.ok r) validate =
         .ok (.apiFailure
           ⟨"API call failed with status " ++ toString r.status, r.status,
            some (decodeErrorBody r.body)⟩ r)) ∧
    (∀ (body : String) (j : Json), jsonParse body = some j →
       decodeErrorBody body = j) ∧
    (∀ body : String, jsonParse body = none → body ≠ "" →
       decodeErrorBody body = .obj [("message", .str body)]) ∧
    decodeErrorBody "" = .obj [("message", .str "Unknown error")] := by
  refine ⟨?_, ?_, ?_, rfl⟩
  · intro r validate h
    simp [callRestEndpointModel, h]
  · intro body j h
    simp [decodeErrorBody, h]
  · intro body h hne
    simp [decodeErrorBody, h, hne]

/-- C4 witness: a 404 with JSON body yields the returned `ApiError` result
with status 404 and the decoded body. -/
theorem c4_error_result_not_thrown_witness :
    callRestEndpointModel
        (.ok ⟨404, some "application/json", "\x7b\"message\":\"missing\"\x7d"⟩)
        (fun v => v) =
      .ok (.apiFailure
        ⟨"API call failed with status 404", 404,
         some (.obj [("message", .str "missing")])⟩
        ⟨404, some "application/json", "\x7b\"message\":\"missing\"\x7d"⟩) :=
  c4_error_result_not_thrown.1
    ⟨404, some "application/json", "\x7b\"message\":\"missing\"\x7d"⟩
    (fun v => v) (by decide)

/-- C5 counterexample: the decoder ignores the declared schema shape.  For a
200 response with content type `application/json` and the non-JSON body
`"hello"` under a string-shaped schema, the claim prescribes a successful text
read, but the code parses JSON and produces the parse-failure error. -/
theorem c5_counterexample_schema_shape :
    decodeScalarBody ⟨200, some "application/json", "hello"⟩ ≠
      decodeScalarBodyAsSpecified .stringShape
        ⟨200, some "application/json", "hello"⟩ := by
  intro h
  have h2 : (Except.error ⟨"Failed to parse response as JSON", 200, none⟩ :
      Except ApiErrorModel (Option Json)) = .ok (some (.str "hello")) := h
  exact Except.noConfusion h2

/-- C5 (amended): scalar bodies are decoded by content type and status only —
`text/` content type reads text, status 204 reads nothing and yields the empty
marker, anything else parses JSON; the declared schema shape plays no role;
and a decode failure is returned as `\x7b error, response \x7d`, not thrown. -/
theorem c5_scalar_decode_amended :
    (∀ r : ResponseModel, ctIncludesText r = true →
       decodeScalarBody r = .ok (some (.str r.body))) ∧
    (∀ r : ResponseModel, ctIncludesText r = false → r.status = 204 →
       decodeScalarBody r = .ok none) ∧
    (∀ r : ResponseModel, ctIncludesText r = false → r.status ≠ 204 →
       ∀ j : Json, jsonParse r.body = some j →
         decodeScalarBody r = .ok (some j)) ∧
    (∀ r : ResponseModel, ctIncludesText r = false → r.status ≠ 204 →
       jsonParse r.body = none →
       decodeScalarBody r =
         .error ⟨"Failed to parse response as JSON", r.status, none⟩) ∧
    (∀ (r : ResponseModel) (validate : Option Json → Option Json)
       (e : ApiErrorModel), r.isOk = true → decodeScalarBody r = .error e →
       callRestEndpointModel (.ok r) validate = .ok (.apiFailure e r)) := by
  refine ⟨?_, ?_, ?_, ?_, ?_⟩
  · intro r h
    simp [decodeScalarBody, h]
  · intro r h h204
    simp [decodeScalarBody, h, h204]
  · intro r h h204 j hj
    simp [decodeScalarBody, h, h204, hj]
  · intro r h h204 hj
    simp [decodeScalarBody, h, h204, hj]
  · intro r validate e hok hdec
    simp [callRestEndpointModel, hok, hdec]

/-- C5 witness: a `text/plain` body is read as text, and a JSON decode
failure on a 200 response comes back as a returned `ApiError` result. -/
theorem c5_scalar_decode_amended_witness :
    decodeScalarBody ⟨200, some "text/plain", "hi"⟩ = .ok (some (.str "hi")) ∧
    callRestEndpointModel (.ok ⟨200, some "application/json", "hello"⟩)
        (fun v => v) =
      .ok (.apiFailure ⟨"Failed to parse response as JSON", 200, none⟩
        ⟨200, some "application/json", "hello"⟩) :=
  ⟨c5_scalar_decode_amended.1 ⟨200, some "text/plain", "hi"⟩ (by decide),
   c5_scalar_decode_amended.2.2.2.2 ⟨200, some "application/json", "hello"⟩
     (fun v => v) ⟨"Failed to parse response as JSON", 200, none⟩
     (by decide) rfl⟩

/-- C6: `runAll` executes the registered callbacks strictly sequentially in
registration order (the left-to-right fold of the initial value), each
callback receives the value produced by the previous one, a callback
returning `undefined` keeps the previous value, and for two callbacks added
in the order A then B the final value is B applied after A. -/
theorem c6_interceptor_run_order :
    (∀ (C D : Type) (cbs : List (C → D → Option D)) (ctx : C) (d : D),
       runAll cbs ctx d = cbs.foldl (fun cur cb => applyCallback cb ctx cur) d) ∧
    (∀ (C D : Type) (A B : C → D → Option D) (ctx : C) (d : D),
       runAll (addInterceptor (addInterceptor [] A) B) ctx d =
         applyCallback B ctx (applyCallback A ctx d)) ∧
    (∀ (C D : Type) (cb : C → D → Option D) (ctx : C) (d : D),
       cb ctx d = none → applyCallback cb ctx d = d) ∧
    (∀ (C D : Type) (rest : List (C → D → Option D)) (ctx : C) (d : D),
       runAll ((fun _ _ => none) :: rest) ctx d = runAll rest ctx d) := by
  refine ⟨?_, fun C D A B ctx d => rfl, ?_, fun C D rest ctx d => rfl⟩
  · intro C D cbs ctx
    induction cbs with
    | nil => intro d; rfl
    | cons cb rest ih =>
      intro d
      simp only [runAll, List.foldl_cons]
      exact ih (applyCallback cb ctx d)
  · intro C D cb ctx d h
    simp [applyCallback, h]

/-- C6 witness: a callback returning `undefined` leaves the value 5
unchanged. -/
theorem c6_interceptor_run_order_witness :
    applyCallback (fun (_ : Nat) (_ : Nat) => (none : Option Nat)) 0 5 = 5 :=
  c6_interceptor_run_order.2.2.1 Nat Nat (fun _ _ => none) 0 5 rfl

/-- C7: when the transport rejects, the call throws the classified
`NetworkError` (it is never returned in the result shape): a `TypeError`
whose message contains `"fetch"` becomes a network-failure `NetworkError`;
an error named `AbortError` becomes a `NetworkError` with `timeout = true`;
any other rejection is wrapped into a `NetworkError`. -/
theorem c7_network_error_thrown :
    (∀ (e : JSErrorModel) (validate : Option Json → Option Json),
       callRestEndpointModel (.error e) validate =
         .error (classifyFetchError e)) ∧
    (∀ m : String, includesStr m "fetch" = true →
       classifyFetchError ⟨true, true, "TypeError", m⟩ =
         ⟨"Network request failed: " ++ m, false⟩) ∧
    (∀ e : JSErrorModel, e.isTypeError = false → e.isError = true →
       e.name = "AbortError" →
       classifyFetchError e = ⟨"Request timeout", true⟩) ∧
    (∀ e : JSErrorModel, e.isTypeError = false → e.isError = true →
       e.name ≠ "AbortError" →
       classifyFetchError e = ⟨"Request failed: " ++ e.message, false⟩) := by
  refine ⟨fun e validate => rfl, ?_, ?_, ?_⟩
  · intro m h
    simp [classifyFetchError, h]
  · intro e h1 h2 h3
    simp [classifyFetchError, h1, h2, h3]
  · intro e h1 h2 h3
    simp [classifyFetchError, h1, h2, h3]

/-- C7 witness: the two concrete rejection shapes from the claim. -/
theorem c7_network_error_thrown_witness :
    classifyFetchError ⟨true, true, "TypeError", "Failed to fetch"⟩ =
      ⟨"Network request failed: Failed to fetch", false⟩ ∧
    classifyFetchError ⟨false, true, "AbortError", "The operation was aborted"⟩ =
      ⟨"Request timeout", true⟩ :=
  ⟨c7_network_error_thrown.2.1 "Failed to fetch" (by decide),
   c7_network_error_thrown.2.2.1
     ⟨false, true, "AbortError", "The operation was aborted"⟩ rfl rfl rfl⟩

/-- C8 counterexample: a whitespace-only line can be consumed (as the final
buffered flush), its `JSON.parse` fails, yet the NDJSON decoder yields no
`ParseError` for it — it is skipped by the trimmed-emptiness guard. -/
theorem c8_counterexample_whitespace_line :
    jsonParse " " = none ∧ readLines [" "] = [" "] ∧
    ndjsonStreamParser (objFieldNum "a") [" "] = [] :=
  ⟨rfl, rfl, rfl⟩

/-- C8 (amended): for every consumed line whose trimmed content is non-empty,
a JSON parse failure yields a `ParseError` carrying the raw line and decoding
continues; a parse success is validated, yielding `JsonItem` on success and
`ParseError` on validation failure; lines that trim to empty are skipped with
no chunk; the decoder is the in-order concatenation of the per-line chunks
and terminates with the stream; and the concrete two-item stream yields
exactly the two `JsonItem` chunks in order. -/
theorem c8_ndjson_per_line :
    (∀ (validate : Json → Option Json) (line : String), trimStr line ≠ "" →
       jsonParse line = none →
       ndjsonProcessLine validate line = [.parseError line]) ∧
    (∀ (validate : Json → Option Json) (line : String) (j d : Json),
       trimStr line ≠ "" → jsonParse line = some j → validate j = some d →
       ndjsonProcessLine validate line = [.jsonItem d line]) ∧
    (∀ (validate : Json → Option Json) (line : String) (j : Json),
       trimStr line ≠ "" → jsonParse line = some j → validate j = none →
       ndjsonProcessLine validate line = [.parseError line]) ∧
    (∀ (validate : Json → Option Json) (line : String), trimStr line = "" →
       ndjsonProcessLine validate line = []) ∧
    (∀ (validate : Json → Option Json) (lines : List String),
       ndjsonRun validate lines =
         lines.foldr (fun l acc => ndjsonProcessLine validate l ++ acc) []) ∧
    ndjsonStreamParser (objFieldNum "a")
        ["\x7b\"a\":1\x7d\n\x7b\"a\":2\x7d\n"] =
      [.jsonItem (.obj [("a", .num 1)]) "\x7b\"a\":1\x7d",
       .jsonItem (.obj [("a", .num 2)]) "\x7b\"a\":2\x7d"] := by
  refine ⟨?_, ?_, ?_, ?_, ?_, rfl⟩
  · intro validate line h hj
    simp [ndjsonProcessLine, beq_eq_false_iff_ne.mpr h, hj]
  · intro validate line j d h hj hv
    simp [ndjsonProcessLine, beq_eq_false_iff_ne.mpr h, hj, hv]
  · intro validate line j h hj hv
    simp [ndjsonProcessLine, beq_eq_false_iff_ne.mpr h, hj, hv]
  · intro validate line h
    simp [ndjsonProcessLine, h]
  · intro validate lines
    induction lines with
    | nil => rfl
    | cons l ls ih => simp only [ndjsonRun, List.foldr_cons, ih]

/-- C8 witness: a non-JSON line yields exactly one `ParseError` carrying the
raw line. -/
theorem c8_ndjson_per_line_witness :
    ndjsonProcessLine (objFieldNum "a") "x" = [.parseError "x"] :=
  c8_ndjson_per_line.1 (objFieldNum "a") "x" (by decide) rfl

/-- Reaching a terminal of the call tree requires exactly one value per
parametric segment. -/
lemma resolveTerminal_arity :
    ∀ (segs : List ParsedSegment) (m : String) (ps : List (String × String))
      (vs : List String),
      (resolveTerminal (buildNode segs m ps) vs).isSome = true ↔
        vs.length = countParams segs := by
  intro segs
  induction segs with
  | nil =>
    intro m ps vs
    cases vs with
    | nil => simp [buildNode, resolveTerminal, countParams]
    | cons v vs => simp [buildNode, resolveTerminal, countParams]
  | cons seg rest ih =>
    intro m ps vs
    cases seg with
    | resource n =>
      simpa [buildNode, resolveTerminal, countParams] using ih m ps vs
    | param n =>
      cases vs with
      | nil => simp [buildNode, resolveTerminal, countParams]
      | cons v vs =>
        simp only [buildNode, resolveTerminal, countParams, List.length_cons]
        rw [ih m (setParam ps n v) vs]
        omega

/-- C9: for every path template, exactly N nested parameter-function calls
(one value per parametric segment) are required before a terminal method call
becomes reachable; applying a parameter function builds a fresh subtree whose
closed-over parameter map is the copy extended with exactly that value, so a
value supplied on one call substitutes into that call's final URL only — the
same tree resolved with `"123"` and with `"456"` produces the two independent
URLs. -/
theorem c9_path_tree_params :
    (∀ (segs : List ParsedSegment) (m : String) (ps : List (String × String))
       (vs : List String),
       (resolveTerminal (buildNode segs m ps) vs).isSome = true ↔
         vs.length = countParams segs) ∧
    (∀ (n : String) (rest : List ParsedSegment) (m : String)
       (ps : List (String × String)) (v : String) (vs : List String),
       resolveTerminal (buildNode (.param n :: rest) m ps) (v :: vs) =
         resolveTerminal (buildNode rest m (setParam ps n v)) vs) ∧
    resolveUrl (buildNode (parsePath "/users/:id") "get" []) "/users/:id"
        ["123"] = some "/users/123" ∧
    resolveUrl (buildNode (parsePath "/users/:id") "get" []) "/users/:id"
        ["456"] = some "/users/456" :=
  ⟨resolveTerminal_arity, fun _ _ _ _ _ _ => rfl, rfl, rfl⟩

/-- C9 witness: resolving the single-parameter template with one supplied
value reaches a terminal. -/
theorem c9_path_tree_params_witness :
    (resolveTerminal (buildNode [ParsedSegment.param "id"] "get" [])
      ["123"]).isSome = true :=
  (c9_path_tree_params.1 [ParsedSegment.param "id"] "get" [] ["123"]).mpr rfl

/-- With an unbounded consumer budget every item is yielded. -/
lemma yieldUpTo_none {α : Type} :
    ∀ l : List α, yieldUpTo l none = (l, none, false) := by
  intro l
  induction l with
  | nil => rfl
  | cons x xs ih => simp [yieldUpTo, ih]

/-- A full uninterrupted run of the `readLines` generator body yields exactly
the lines of the pure model and raises nothing. -/
lemma readLinesBody_toEnd :
    ∀ (chunks : List String) (buffer : String),
      (readLinesBody (chunks.map ReadStep.chunk) buffer none).yielded =
        readLinesGo chunks buffer ∧
      (readLinesBody (chunks.map ReadStep.chunk) buffer none).raised = false := by
  intro chunks
  induction chunks with
  | nil =>
    intro buffer
    by_cases h : 0 < buffer.length <;>
      simp [readLinesBody, readLinesGo, h]
  | cons c cs ih =>
    intro buffer
    have h := ih ((splitOnNl (buffer ++ c)).getLastD "")
    simp only [List.getLastD_eq_getLast?] at h
    simp only [List.map_cons, readLinesBody, readLinesGo, yieldUpTo_none]
    simp [h.1, h.2]

/-- C10: both streaming readers release the reader lock on every run — normal
exhaustion, a rejected read, or the consumer abandoning iteration after any
number of items — and an uninterrupted run of the line reader yields exactly
the lines of the pure model without raising. -/
theorem c10_reader_lock_released :
    (∀ (reads : List ReadStep) (mode : ConsumeMode),
       (readLinesRun reads mode).released = true) ∧
    (∀ (reads : List BinReadStep) (mode : ConsumeMode),
       (binaryStreamRun reads mode).released = true) ∧
    (∀ chunks : List String,
       (readLinesRun (chunks.map ReadStep.chunk) ConsumeMode.toEnd).yielded =
         readLines chunks ∧
       (readLinesRun (chunks.map ReadStep.chunk) ConsumeMode.toEnd).raised =
         false) :=
  ⟨fun _ _ => rfl, fun _ _ => rfl,
   fun chunks => readLinesBody_toEnd chunks ""⟩

end ApiForge
